import Mathlib

/-!
Shallow embedding of `src/app.py` (career-bot): the push-notification sink,
the two tool functions, the dynamic tool dispatch in `Me.handle_tool_call`,
the system prompt, the persona-document loaders, and the chat-completion
loop `Me.chat`.  External collaborators (the chat-completion API, the HTTP
layer of `requests.post`, the file system and PDF reader, `json.loads`)
are modelled as explicit value-level oracles passed in, so every definition
is executable.
-/

namespace CareerBot

/-- Parsed JSON values, as produced by Python's `json.loads` and consumed by
`json.dumps`.  `obj` models a Python dict (keys distinct, insertion order). -/
inductive Json where
  | null : Json
  | bool (b : Bool) : Json
  | num (n : Int) : Json
  | str (s : String) : Json
  | arr (elems : List Json) : Json
  | obj (fields : List (String × Json)) : Json
deriving Repr, BEq

/-- String escaping as in `json.dumps` (only the characters that can occur in
this program's payloads: backslash and double quote). -/
def jsonEscape (s : String) : String :=
  String.join (s.toList.map fun c =>
    if c = '\\' then "\\\\" else if c = '"' then "\\\"" else String.singleton c)

mutual
/-- `json.dumps` with its default separators. -/
def dumps : Json → String
  | .null => "null"
  | .bool true => "true"
  | .bool false => "false"
  | .num n => toString n
  | .str s => "\"" ++ jsonEscape s ++ "\""
  | .arr xs => "[" ++ dumpsList xs ++ "]"
  | .obj fs => "\x7b" ++ dumpsFields fs ++ "\x7d"

def dumpsList : List Json → String
  | [] => ""
  | [x] => dumps x
  | x :: xs => dumps x ++ ", " ++ dumpsList xs

def dumpsFields : List (String × Json) → String
  | [] => ""
  | [(k, v)] => "\"" ++ jsonEscape k ++ "\": " ++ dumps v
  | (k, v) :: fs => "\"" ++ jsonEscape k ++ "\": " ++ dumps v ++ ", " ++ dumpsFields fs
end

/-- Python's `str()` on a parsed JSON value, as interpolated by the f-strings
in the tool bodies.  Scalars follow Python exactly; for containers (which the
model never sends for these string-typed parameters) we reuse the JSON
rendering as an approximation of `repr`. -/
def pyStr : Json → String
  | .str s => s
  | .num n => toString n
  | .bool true => "True"
  | .bool false => "False"
  | .null => "None"
  | v => dumps v

/-- The two Pushover credentials, `PUSHOVER_TOKEN` and `PUSHOVER_USER`, after
the `st.secrets.get(..., os.getenv(...))` resolution at module load:
`none` when absent from both sources. -/
structure Config where
  pushoverToken : Option String
  pushoverUser : Option String

/-- Python truthiness of an optional string: `None` and `""` are falsy. -/
def truthyStr : Option String → Bool
  | none => false
  | some s => !(s == "")

/-- One outbound HTTP POST to the push endpoint, with its form fields. -/
structure PushReq where
  url : String
  token : String
  user : String
  message : String
deriving Repr, BEq

/-- Python exceptions that can escape the pieces we model. -/
inductive PyError where
  | jsonDecodeError : PyError
  | typeError : PyError
  | indexError : PyError
  | requestException (e : String) : PyError
  | apiError (e : String) : PyError
deriving Repr, BEq

/-- `requests.post`, modelled by an environment function `net` describing
what the call does for a given request: return a `Response` (represented by
its HTTP status — success or failure alike, the caller discards it), or
raise a transport exception (`requests` has no handler in the source, so it
escapes `push`). -/
def requests_post (net : PushReq → Except String Nat) (r : PushReq) :
    Except String Nat := net r

/-- `push(text)`: issues a single POST when both credentials are truthy,
otherwise does nothing.  On success returns the list of outbound requests
it made (the observable network effect) with the HTTP status dropped,
exactly as the source drops the `requests.post` return value; a transport
exception raised by `requests.post` propagates (there is no try/except in
`push`). -/
def push (net : PushReq → Except String Nat) (cfg : Config) (text : String) :
    Except PyError (List PushReq) :=
  if truthyStr cfg.pushoverToken && truthyStr cfg.pushoverUser then
    let r : PushReq :=
      ⟨"https://api.pushover.net/1/messages.json",
        cfg.pushoverToken.getD "", cfg.pushoverUser.getD "", text⟩
    match requests_post net r with
    | .error e => .error (.requestException e)
    | .ok _status => .ok [r]
  else .ok []

/-- `record_user_details(email, name="Name not provided", notes="not provided")`:
pushes a formatted message, then returns the fixed acknowledgement.  A
transport exception raised inside `push` propagates and suppresses the
return (the tool has no handler).  The Python defaults are supplied by the
call-binding step in `invokeGlobal`. -/
def record_user_details (net : PushReq → Except String Nat) (cfg : Config)
    (email name notes : Json) : Except PyError (Json × List PushReq) :=
  match push net cfg
      ("Recording " ++ pyStr name ++ " with email " ++ pyStr email ++
       " and notes " ++ pyStr notes) with
  | .error e => .error e
  | .ok reqs => .ok (Json.obj [("recorded", Json.str "ok")], reqs)

/-- `record_unknown_question(question)`: pushes a formatted message, then
returns the fixed acknowledgement; a transport exception from `push`
propagates. -/
def record_unknown_question (net : PushReq → Except String Nat) (cfg : Config)
    (question : Json) : Except PyError (Json × List PushReq) :=
  match push net cfg ("Recording " ++ pyStr question) with
  | .error e => .error e
  | .ok reqs => .ok (Json.obj [("recorded", Json.str "ok")], reqs)

/-- The module-level dict `record_user_details_json` (the tool's schema). -/
def record_user_details_json : Json :=
  .obj [("name", .str "record_user_details"),
        ("description", .str "Use this tool to record user interest and email address"),
        ("parameters", .obj
          [("type", .str "object"),
           ("properties", .obj
             [("email", .obj [("type", .str "string"), ("description", .str "User email")]),
              ("name", .obj [("type", .str "string"), ("description", .str "User name")]),
              ("notes", .obj [("type", .str "string"), ("description", .str "Additional notes")])]),
           ("required", .arr [.str "email"])])]

/-- The module-level dict `record_unknown_question_json`. -/
def record_unknown_question_json : Json :=
  .obj [("name", .str "record_unknown_question"),
        ("description", .str "Record any unanswered question"),
        ("parameters", .obj
          [("type", .str "object"),
           ("properties", .obj
             [("question", .obj [("type", .str "string"), ("description", .str "Unanswered question")])]),
           ("required", .arr [.str "question"])])]

/-- The fixed `tools` list passed on every chat-completion request. -/
def tools : List Json :=
  [.obj [("type", .str "function"), ("function", record_user_details_json)],
   .obj [("type", .str "function"), ("function", record_unknown_question_json)]]

/-- Classification of a value bound in the module's global namespace, as seen
by `globals().get(tool_name)`: one of the three module-level functions the
dispatcher can reach, or any other binding with its Python truthiness. -/
inductive PyGlobal where
  | fnRecordUserDetails : PyGlobal
  | fnRecordUnknownQuestion : PyGlobal
  | fnPush : PyGlobal
  | other (truthy : Bool) : PyGlobal
deriving Repr, BEq

/-- Python truthiness of a global binding (functions, modules, classes and
nonempty dicts are truthy; `None` and `""` are not). -/
def pyTruthy : PyGlobal → Bool
  | .other b => b
  | _ => true

/-- `globals().get(name)` at the point `Me.chat` runs from the text-input
path: the names bound unconditionally at module level.  `PUSHOVER_TOKEN` and
`PUSHOVER_USER` carry their environment-dependent truthiness; names bound
only inside the voice-path branches (`frames`, `tmp_path`, ...) are omitted. -/
def globalsGet (cfg : Config) (name : String) : Option PyGlobal :=
  if name == "record_user_details" then some .fnRecordUserDetails
  else if name == "record_unknown_question" then some .fnRecordUnknownQuestion
  else if name == "push" then some .fnPush
  else if name == "PUSHOVER_TOKEN" then some (.other (truthyStr cfg.pushoverToken))
  else if name == "PUSHOVER_USER" then some (.other (truthyStr cfg.pushoverUser))
  else if ["st", "os", "json", "OpenAI", "PdfReader", "load_dotenv", "requests",
           "tempfile", "av", "webrtc_streamer", "WebRtcMode", "ClientSettings",
           "queue", "record_user_details_json", "record_unknown_question_json",
           "tools", "Me", "me", "audio_buffer", "audio_callback",
           "user_input"].contains name then some (.other true)
  else none

/-- One entry of the OpenAI message's `tool_calls` list: `id`,
`function.name`, and `function.arguments`.  The `arguments` JSON string is
represented by its parse result: `some v` when `json.loads` would return
`v`, `none` when it would raise. -/
structure ToolCall where
  id : String
  name : String
  arguments : Option Json
deriving Repr, BEq

/-- A message-list entry: either a `{"role": ..., "content": ...}` dict, a
tool-result dict (which additionally has `tool_call_id`), or the assistant
message object returned by the API (which may carry `tool_calls`).  Absent
keys/attributes are `none`. -/
structure Turn where
  role : String
  content : Option String
  tool_call_id : Option String
  tool_calls : Option (List ToolCall)
deriving Repr, BEq

/-- Python's `tool(**args)` for the truthy global `g`: unpacking a
non-mapping raises `TypeError`; keyword binding against the function's
parameters raises `TypeError` on a missing required or unexpected keyword;
calling a non-callable binding raises `TypeError`.  On success returns the
function's return value and its push-notification trace (`push` returns
`None`, serialized later as `null`). -/
def invokeGlobal (net : PushReq → Except String Nat) (cfg : Config) (g : PyGlobal)
    (args : Json) : Except PyError (Json × List PushReq) :=
  match args with
  | .obj fields =>
    match g with
    | .fnRecordUserDetails =>
      if (fields.map Prod.fst).all (fun k => k == "email" || k == "name" || k == "notes") then
        match fields.lookup "email" with
        | some email =>
          let name := (fields.lookup "name").getD (.str "Name not provided")
          let notes := (fields.lookup "notes").getD (.str "not provided")
          record_user_details net cfg email name notes
        | none => .error .typeError
      else .error .typeError
    | .fnRecordUnknownQuestion =>
      if (fields.map Prod.fst).all (fun k => k == "question") then
        match fields.lookup "question" with
        | some question => record_unknown_question net cfg question
        | none => .error .typeError
      else .error .typeError
    | .fnPush =>
      if (fields.map Prod.fst).all (fun k => k == "text") then
        match fields.lookup "text" with
        | some text =>
          match push net cfg (pyStr text) with
          | .error e => .error e
          | .ok reqs => .ok (Json.null, reqs)
        | none => .error .typeError
      else .error .typeError
    | .other _ => .error .typeError
  | _ =>
    match g with
    | .other _ => .error .typeError
    | _ => .error .typeError

/-- The body pair `tool = globals().get(tool_name)` followed by
`result = tool(**args) if tool else {}`: a falsy or missing binding yields
the empty dict without a call; a truthy binding is invoked. -/
def dispatchCall (net : PushReq → Except String Nat) (cfg : Config) (name : String)
    (args : Json) : Except PyError (Json × List PushReq) :=
  match globalsGet cfg name with
  | none => .ok (.obj [], [])
  | some g => if pyTruthy g then invokeGlobal net cfg g args else .ok (.obj [], [])

/-- `Me.handle_tool_call(tool_calls)`: for each call, parse the arguments
(`json.loads`, unguarded), resolve the name against `globals()` and invoke
(`dispatchCall`), serialize the result with `json.dumps`, and build the
`{"role": "tool", ...}` turn.  Returns the turns in request order together
with the push trace; the first raised exception aborts the whole batch. -/
def handle_tool_call (net : PushReq → Except String Nat) (cfg : Config) :
    List ToolCall → Except PyError (List Turn × List PushReq)
  | [] => .ok ([], [])
  | tc :: rest =>
    match tc.arguments with
    | none => .error .jsonDecodeError
    | some args =>
      match dispatchCall net cfg tc.name args with
      | .error e => .error e
      | .ok (result, pushes) =>
        match handle_tool_call net cfg rest with
        | .error e => .error e
        | .ok (rs, ps) =>
          .ok (⟨"tool", some (dumps result), some tc.id, none⟩ :: rs, pushes ++ ps)

/-- The `Me` instance: persona name and the three loaded documents. -/
structure Me where
  name : String
  linkedin : String
  cv : String
  summary : String
deriving Repr, BEq

/-- Outcome of `PdfReader(path)` plus per-page `extract_text()`: the list of
page texts (`none` for a page whose `extract_text` returned `None`), or a
raised exception anywhere inside the `try`. -/
inductive PdfRead where
  | pages (texts : List (Option String)) : PdfRead
  | raised : PdfRead
deriving Repr, BEq

/-- Outcome of `open(path).read()`: the file's text, or a raised exception. -/
inductive FileRead where
  | content (text : String) : FileRead
  | raised : FileRead
deriving Repr, BEq

/-- `Me._read_pdf(path)`: joins the page texts with newlines, replacing a
`None` page by `""`; any exception yields the placeholder. -/
def Me.read_pdf : PdfRead → String
  | .pages ts => String.intercalate "\n" (ts.map (fun t => t.getD ""))
  | .raised => "Not available."

/-- `Me._read_file(path)`: the file's text; any exception yields the
placeholder. -/
def Me.read_file : FileRead → String
  | .content t => t
  | .raised => "Summary not available."

/-- `Me.__init__`: fixed persona name, then the three documents loaded
through the guarded readers (their I/O outcomes are the parameters). -/
def mkMe (linkedin cv : PdfRead) (summary : FileRead) : Me :=
  { name := "Ashish Kamat",
    linkedin := Me.read_pdf linkedin,
    cv := Me.read_pdf cv,
    summary := Me.read_file summary }

/-- `Me.system_prompt()`: the exact f-string of the source. -/
def Me.system_prompt (m : Me) : String :=
  "You are " ++ m.name ++ ", representing him professionally. " ++
  "Use his summary, CV, and LinkedIn below to respond to users:\n\n" ++
  "## Summary:\n" ++ m.summary ++ "\n\n" ++
  "## LinkedIn:\n" ++ m.linkedin ++ "\n\n" ++
  "## CV:\n" ++ m.cv ++ "\n\n" ++
  "If unsure of something, record the question with the tool. " ++
  "Encourage users to share their email and record it too."

/-- One element of `response.choices`. -/
structure Choice where
  finish_reason : String
  message : Turn
deriving Repr, BEq

/-- A chat-completion response. -/
structure Response where
  choices : List Choice
deriving Repr, BEq

/-- What one `openai.chat.completions.create` call does: return a response,
or raise a communication error. -/
inductive ApiResult where
  | ok (resp : Response) : ApiResult
  | err (e : String) : ApiResult
deriving Repr, BEq

/-- One request sent to the chat-completion API: model identifier, the full
message list, and the tool-spec list. -/
structure ApiRequest where
  model : String
  messages : List Turn
  tools : List Json
deriving Repr, BEq

/-- The request `Me.chat` sends for a given message list. -/
def reqFor (messages : List Turn) : ApiRequest :=
  ⟨"gpt-4o-mini", messages, tools⟩

/-- How a `Me.chat` call ends: a returned reply (`msg.content`, possibly
`None`), a raised exception, or the supplied API trace ran out while the
`while True` loop would have issued another request. -/
inductive ChatResult where
  | returns (content : Option String) : ChatResult
  | raises (e : PyError) : ChatResult
  | outOfResponses : ChatResult
deriving Repr, BEq

/-- The `while True` loop of `Me.chat`, driven by the finite trace `oracle`
of API behaviours (one entry consumed per round).  Accumulates the requests
issued and the pushes performed. -/
def chatLoop (net : PushReq → Except String Nat) (cfg : Config) :
    List ApiResult → List Turn → List ApiRequest → List PushReq →
    ChatResult × List ApiRequest × List PushReq
  | [], _, reqs, ps => (.outOfResponses, reqs, ps)
  | r :: rest, messages, reqs, ps =>
    let reqs := reqs ++ [reqFor messages]
    match r with
    | .err e => (.raises (.apiError e), reqs, ps)
    | .ok resp =>
      match resp.choices with
      | [] => (.raises .indexError, reqs, ps)
      | choice :: _ =>
        let msg := choice.message
        if choice.finish_reason == "tool_calls" then
          match msg.tool_calls with
          | none => (.raises .typeError, reqs, ps)
          | some tcs =>
            match handle_tool_call net cfg tcs with
            | .error e => (.raises e, reqs, ps)
            | .ok (results, pushes) =>
              chatLoop net cfg rest (messages ++ msg :: results) reqs (ps ++ pushes)
        else (.returns msg.content, reqs, ps)

/-- The synthesized system turn. -/
def systemTurn (m : Me) : Turn := ⟨"system", some m.system_prompt, none, none⟩

/-- The new user turn. -/
def userTurn (s : String) : Turn := ⟨"user", some s, none, none⟩

/-- `Me.chat(user_message, chat_history)`: builds
`[system] + chat_history + [user]` and runs the loop. -/
def Me.chat (net : PushReq → Except String Nat) (cfg : Config) (m : Me)
    (oracle : List ApiResult) (user_message : String) (chat_history : List Turn) :
    ChatResult × List ApiRequest × List PushReq :=
  chatLoop net cfg oracle (systemTurn m :: chat_history ++ [userTurn user_message]) [] []

/-! The same `Me.chat`, re-embedded with Python's list aliasing made
explicit: list objects live in a heap of cells, `[a] + b + [c]` allocates a
fresh cell, and `messages.append` / `messages.extend` mutate the `messages`
cell in place.  This is the model on which "chat never mutates the caller's
history list" is a contentful statement. -/

/-- A heap of Python list objects; a reference is an index into `cells`. -/
structure Heap where
  cells : List (List Turn)
deriving Repr, BEq

/-- Dereference a list object. -/
def Heap.get (h : Heap) (r : Nat) : List Turn := h.cells.getD r []

/-- Allocate a fresh list object (what Python's `list + list` does). -/
def Heap.alloc (h : Heap) (v : List Turn) : Heap × Nat :=
  (⟨h.cells ++ [v]⟩, h.cells.length)

/-- Overwrite a list object in place (what `.append` / `.extend` do). -/
def Heap.set (h : Heap) (r : Nat) (v : List Turn) : Heap := ⟨h.cells.set r v⟩

/-- The `while True` loop of `Me.chat` over the heap: each round reads the
`messages` cell `mref`, and a tool round updates that one cell in place. -/
def chatLoopH (net : PushReq → Except String Nat) (cfg : Config) :
    List ApiResult → Heap → Nat → ChatResult × Heap
  | [], h, _ => (.outOfResponses, h)
  | r :: rest, h, mref =>
    let messages := h.get mref
    match r with
    | .err e => (.raises (.apiError e), h)
    | .ok resp =>
      match resp.choices with
      | [] => (.raises .indexError, h)
      | choice :: _ =>
        let msg := choice.message
        if choice.finish_reason == "tool_calls" then
          match msg.tool_calls with
          | none => (.raises .typeError, h)
          | some tcs =>
            match handle_tool_call net cfg tcs with
            | .error e => (.raises e, h)
            | .ok (results, _) =>
              chatLoopH net cfg rest (h.set mref (messages ++ msg :: results)) mref
        else (.returns msg.content, h)

/-- `Me.chat` over the heap: `chat_history` is passed as a reference
`histRef`; the first line `[system] + chat_history + [user]` allocates a
fresh `messages` cell, and all subsequent appends go to that cell. -/
def Me.chatH (net : PushReq → Except String Nat) (cfg : Config) (m : Me)
    (oracle : List ApiResult) (user_message : String) (histRef : Nat)
    (h : Heap) : ChatResult × Heap :=
  let msgs := systemTurn m :: h.get histRef ++ [userTurn user_message]
  let (h1, mref) := h.alloc msgs
  chatLoopH net cfg oracle h1 mref

/-! Concrete fixtures used to instantiate the theorems below. -/

/-- An HTTP environment that answers 200 to every push. -/
def net0 : PushReq → Except String Nat := fun _ => .ok 200

/-- A configuration with both Pushover credentials present. -/
def cfg0 : Config := ⟨some "tok", some "usr"⟩

/-- A configuration with both Pushover credentials absent. -/
def cfgNone : Config := ⟨none, none⟩

/-- A `Me` instance loaded from concrete one-page documents. -/
def me0 : Me := mkMe (.pages [some "li"]) (.pages [some "cv"]) (.content "sum")

/-- An API response that requests zero tool calls (finish reason
`tool_calls` with an empty `tool_calls` list). -/
def emptyToolCallsResp : Response :=
  ⟨[⟨"tool_calls", ⟨"assistant", none, none, some []⟩⟩]⟩

/-- An ordinary-completion API response carrying the given text. -/
def stopResp (content : String) : Response :=
  ⟨[⟨"stop", ⟨"assistant", some content, none, none⟩⟩]⟩

/-- A concrete `record_unknown_question` tool call. -/
def tcQ : ToolCall :=
  ⟨"c1", "record_unknown_question", some (.obj [("question", .str "Do you know Zig?")])⟩

/-- The assistant message carrying `tcQ`. -/
def msgQ : Turn := ⟨"assistant", none, none, some [tcQ]⟩

/-- The tool-result turn `handle_tool_call` builds for `tcQ`. -/
def resQ : Turn := ⟨"tool", some "\x7b\"recorded\": \"ok\"\x7d", some "c1", none⟩

/-- The push notification `tcQ` triggers under `cfg0`. -/
def pushQ : PushReq :=
  ⟨"https://api.pushover.net/1/messages.json", "tok", "usr", "Recording Do you know Zig?"⟩

/-! Theorems. -/

/-- C4 counterexample: with credentials present and `requests.post` raising
a transport exception, the exception propagates out of the tool — neither
`record_user_details` nor `record_unknown_question` returns the fixed
acknowledgement: the delivery outcome suppressed the return value. -/
theorem transport_error_suppresses_ack_counterexample :
    record_user_details (fun _ => .error "ConnectionError") cfg0
        (.str "a@b.com") (.str "Name not provided") (.str "not provided") =
      .error (.requestException "ConnectionError")
    ∧ record_unknown_question (fun _ => .error "ConnectionError") cfg0 (.str "x") =
      .error (.requestException "ConnectionError") :=
  ⟨rfl, rfl⟩

/-- C4 amended: the tools never inspect the value `requests.post` returns —
whenever the tool returns at all, the payload is the fixed
`{"recorded": "ok"}`; two environments answering with any HTTP statuses
(success or failure) yield identical results, so a returned delivery
outcome cannot change the payload; and with a credential absent no call is
made, so the fixed payload is returned under every environment, raising
ones included.  Only a raised transport exception suppresses the return
(see the counterexample). -/
theorem record_tools_fixed_ack (net : PushReq → Except String Nat)
    (st st' : PushReq → Nat) (cfg : Config)
    (email name notes question : Json) :
    (∀ res ps, record_user_details net cfg email name notes = .ok (res, ps) →
        res = Json.obj [("recorded", Json.str "ok")])
    ∧ (∀ res ps, record_unknown_question net cfg question = .ok (res, ps) →
        res = Json.obj [("recorded", Json.str "ok")])
    ∧ record_user_details (fun r => .ok (st r)) cfg email name notes =
        record_user_details (fun r => .ok (st' r)) cfg email name notes
    ∧ record_unknown_question (fun r => .ok (st r)) cfg question =
        record_unknown_question (fun r => .ok (st' r)) cfg question
    ∧ (cfg.pushoverToken = none ∨ cfg.pushoverUser = none →
        record_user_details net cfg email name notes =
          .ok (Json.obj [("recorded", Json.str "ok")], [])
        ∧ record_unknown_question net cfg question =
          .ok (Json.obj [("recorded", Json.str "ok")], [])) := by
  refine ⟨?_, ?_, rfl, rfl, ?_⟩
  · intro res ps h
    unfold record_user_details at h
    split at h
    · cases h
    · exact (congrArg Prod.fst (Except.ok.inj h)).symm
  · intro res ps h
    unfold record_unknown_question at h
    split at h
    · cases h
    · exact (congrArg Prod.fst (Except.ok.inj h)).symm
  · intro h
    have hp : ∀ (msg : String), push net cfg msg = .ok [] := by
      intro msg
      rcases h with h | h <;> simp [push, truthyStr, h]
    constructor <;> simp [record_user_details, record_unknown_question, hp]

/-- Witness for the amended C4: both tools applied at concrete arguments,
with the return-path hypotheses discharged by evaluation. -/
theorem record_tools_fixed_ack_witness :
    Json.obj [("recorded", Json.str "ok")] = Json.obj [("recorded", Json.str "ok")]
    ∧ record_user_details net0 cfgNone (.str "a@b.com") (.str "Bob") (.str "hi") =
        .ok (Json.obj [("recorded", Json.str "ok")], [])
    ∧ record_unknown_question net0 cfgNone (.str "x") =
        .ok (Json.obj [("recorded", Json.str "ok")], []) :=
  ⟨(record_tools_fixed_ack net0 (fun _ => 200) (fun _ => 500) cfg0
      (.str "a@b.com") (.str "Bob") (.str "hi") (.str "x")).1
      (Json.obj [("recorded", Json.str "ok")])
      [⟨"https://api.pushover.net/1/messages.json", "tok", "usr",
        "Recording Bob with email a@b.com and notes hi"⟩] rfl,
   ((record_tools_fixed_ack net0 (fun _ => 200) (fun _ => 500) cfgNone
      (.str "a@b.com") (.str "Bob") (.str "hi") (.str "x")).2.2.2.2
      (Or.inl rfl)).1,
   ((record_tools_fixed_ack net0 (fun _ => 200) (fun _ => 500) cfgNone
      (.str "a@b.com") (.str "Bob") (.str "hi") (.str "x")).2.2.2.2
      (Or.inl rfl)).2⟩

/-- C5: an error raised by the chat-completion call propagates out of the
loop uncaught: the round's single request is issued, the error is re-raised
as the result, and the remainder of the API trace is never consumed (no
retry, no backoff, no recovery) — both at an arbitrary round of `chatLoop`
and for a whole `Me.chat` call. -/
theorem api_error_propagates_uncaught (net : PushReq → Except String Nat) (cfg : Config)
    (e : String) (rest : List ApiResult) (m : Me) (um : String)
    (hist msgs : List Turn) (reqs : List ApiRequest) (ps : List PushReq) :
    chatLoop net cfg (.err e :: rest) msgs reqs ps =
        (.raises (.apiError e), reqs ++ [reqFor msgs], ps)
    ∧ Me.chat net cfg m (.err e :: rest) um hist =
        (.raises (.apiError e),
          [reqFor (systemTurn m :: hist ++ [userTurn um])], []) :=
  ⟨rfl, rfl⟩

/-- C6: the system prompt is a deterministic pure function of the three
loaded persona documents; two `Me` instances built by `__init__` (which
fixes the persona name) from sources whose loaded texts coincide produce
character-for-character identical prompts. -/
theorem system_prompt_deterministic (l1 c1 l2 c2 : PdfRead)
    (s1 s2 : FileRead)
    (hl : Me.read_pdf l1 = Me.read_pdf l2)
    (hc : Me.read_pdf c1 = Me.read_pdf c2)
    (hs : Me.read_file s1 = Me.read_file s2) :
    (mkMe l1 c1 s1).system_prompt = (mkMe l2 c2 s2).system_prompt := by
  simp [mkMe, Me.system_prompt, hl, hc, hs]

/-- Witness for C6 at concrete documents. -/
theorem system_prompt_deterministic_witness :
    (mkMe (.pages [some "li"]) (.pages [some "cv"]) (.content "sum")).system_prompt =
      (mkMe (.pages [some "li"]) (.pages [some "cv"]) (.content "sum")).system_prompt :=
  system_prompt_deterministic _ _ _ _ _ _ rfl rfl rfl

/-- C7: when either Pushover credential is absent, `push` performs no
network call at all — it returns (raising nothing, under any environment)
with an empty outbound-request trace. -/
theorem push_noop_without_credentials (net : PushReq → Except String Nat) (cfg : Config)
    (text : String)
    (h : cfg.pushoverToken = none ∨ cfg.pushoverUser = none) :
    push net cfg text = .ok [] := by
  rcases h with h | h <;> simp [push, truthyStr, h]

/-- Witness for C7: with both credentials absent, no request is issued. -/
theorem push_noop_without_credentials_witness :
    push net0 cfgNone "hello" = .ok [] :=
  push_noop_without_credentials net0 cfgNone "hello" (Or.inl rfl)

/-- C8: a failed read of any persona source degrades to that document's
fixed placeholder instead of raising, and `__init__` always succeeds,
producing text for all three documents whatever the I/O outcomes. -/
theorem missing_sources_yield_placeholders :
    Me.read_pdf .raised = "Not available."
    ∧ Me.read_file .raised = "Summary not available."
    ∧ ∀ (lk cv : PdfRead) (sm : FileRead),
        mkMe lk cv sm =
          ⟨"Ashish Kamat", Me.read_pdf lk, Me.read_pdf cv, Me.read_file sm⟩ :=
  ⟨rfl, rfl, fun _ _ _ => rfl⟩

/-- A successful `handle_tool_call` batch yields tool-role turns whose
`tool_call_id`s are exactly the request ids, in request order. -/
theorem handle_tool_call_ok_ids (net : PushReq → Except String Nat) (cfg : Config) :
    ∀ (tcs : List ToolCall) (results : List Turn) (pushes : List PushReq),
      handle_tool_call net cfg tcs = .ok (results, pushes) →
      results.map Turn.tool_call_id = tcs.map (fun tc => some tc.id)
        ∧ ∀ t ∈ results, t.role = "tool" := by
  intro tcs
  induction tcs with
  | nil =>
    intro results pushes h
    simp only [handle_tool_call, Except.ok.injEq, Prod.mk.injEq] at h
    obtain ⟨h1, _⟩ := h
    subst h1
    simp
  | cons tc rest ih =>
    intro results pushes h
    simp only [handle_tool_call] at h
    split at h
    · cases h
    · split at h
      · cases h
      · split at h
        · cases h
        · rename_i args hargs result pushes1 hstep rs ps hrec
          simp only [Except.ok.injEq, Prod.mk.injEq] at h
          obtain ⟨h1, _⟩ := h
          subst h1
          obtain ⟨ih1, ih2⟩ := ih rs ps hrec
          refine ⟨by simp [ih1], ?_⟩
          intro t ht
          rcases List.mem_cons.mp ht with h | h
          · subst h; rfl
          · exact ih2 t h

/-- C1: a model response whose finish reason is `tool_calls` produces, when
its tool calls execute without raising, exactly one ToolResult turn per
ToolCallRequest: the results are in request order (their `tool_call_id`s are
the request ids, position by position), each has role `tool`, and the loop's
next round runs on the previous message list extended by the model's
tool-call-bearing turn immediately followed by those results — so they all
precede the next request to the model. -/
theorem tool_round_one_result_per_request (net : PushReq → Except String Nat) (cfg : Config)
    (tcs : List ToolCall) (results : List Turn) (pushes : List PushReq)
    (hok : handle_tool_call net cfg tcs = .ok (results, pushes)) :
    (results.length = tcs.length
      ∧ results.map Turn.tool_call_id = tcs.map (fun tc => some tc.id)
      ∧ ∀ t ∈ results, t.role = "tool")
    ∧ ∀ (rest : List ApiResult) (msg : Turn) (cs : List Choice)
        (msgs : List Turn) (reqs : List ApiRequest) (ps : List PushReq),
        msg.tool_calls = some tcs →
        chatLoop net cfg (.ok ⟨⟨"tool_calls", msg⟩ :: cs⟩ :: rest) msgs reqs ps =
          chatLoop net cfg rest (msgs ++ msg :: results)
            (reqs ++ [reqFor msgs]) (ps ++ pushes) := by
  obtain ⟨hmap, hrole⟩ := handle_tool_call_ok_ids net cfg tcs results pushes hok
  refine ⟨⟨?_, hmap, hrole⟩, ?_⟩
  · have := congrArg List.length hmap
    simpa using this
  · intro rest msg cs msgs reqs ps hmsg
    simp [chatLoop, hmsg, hok]

/-- Witness for C1 at a concrete `record_unknown_question` round. -/
theorem tool_round_one_result_per_request_witness :
    (([resQ].length = [tcQ].length
      ∧ [resQ].map Turn.tool_call_id = [tcQ].map (fun tc => some tc.id)
      ∧ ∀ t ∈ [resQ], t.role = "tool")
    ∧ chatLoop net0 cfg0 [.ok ⟨[⟨"tool_calls", msgQ⟩]⟩] [] [] [] =
        chatLoop net0 cfg0 [] ([] ++ msgQ :: [resQ]) ([] ++ [reqFor []]) ([] ++ [pushQ])) :=
  ⟨(tool_round_one_result_per_request net0 cfg0 [tcQ] [resQ] [pushQ] rfl).1,
   (tool_round_one_result_per_request net0 cfg0 [tcQ] [resQ] [pushQ] rfl).2
     [] msgQ [] [] [] [] rfl⟩

/-- The request trace of `chatLoop` extends whatever accumulator it starts
from. -/
theorem chatLoop_reqs_prefix (net : PushReq → Except String Nat) (cfg : Config) :
    ∀ (oracle : List ApiResult) (msgs : List Turn) (reqs : List ApiRequest)
      (ps : List PushReq),
      ∃ t, (chatLoop net cfg oracle msgs reqs ps).2.1 = reqs ++ t := by
  intro oracle
  induction oracle with
  | nil => intro msgs reqs ps; exact ⟨[], by simp [chatLoop]⟩
  | cons r rest ih =>
    intro msgs reqs ps
    cases r with
    | err e => exact ⟨[reqFor msgs], by simp [chatLoop]⟩
    | ok resp =>
      rcases hcs : resp.choices with _ | ⟨choice, cs⟩
      · exact ⟨[reqFor msgs], by simp [chatLoop, hcs]⟩
      · cases hfr : choice.finish_reason == "tool_calls" with
        | false => exact ⟨[reqFor msgs], by simp [chatLoop, hcs, hfr]⟩
        | true =>
          cases htc : choice.message.tool_calls with
          | none => exact ⟨[reqFor msgs], by simp [chatLoop, hcs, hfr, htc]⟩
          | some tcs =>
            cases hh : handle_tool_call net cfg tcs with
            | error e => exact ⟨[reqFor msgs], by simp [chatLoop, hcs, hfr, htc, hh]⟩
            | ok rp =>
              obtain ⟨results, pushes⟩ := rp
              obtain ⟨t, ht⟩ := ih (msgs ++ choice.message :: results)
                (reqs ++ [reqFor msgs]) (ps ++ pushes)
              exact ⟨reqFor msgs :: t, by simp [chatLoop, hcs, hfr, htc, hh, ht]⟩

/-- A round always records the request for its current message list as the
next trace entry. -/
theorem chatLoop_cons_trace (net : PushReq → Except String Nat) (cfg : Config)
    (r : ApiResult) (rest : List ApiResult) (msgs : List Turn)
    (reqs : List ApiRequest) (ps : List PushReq) :
    ∃ t, (chatLoop net cfg (r :: rest) msgs reqs ps).2.1 =
      reqs ++ reqFor msgs :: t := by
  cases r with
  | err e => exact ⟨[], by simp [chatLoop]⟩
  | ok resp =>
    rcases hcs : resp.choices with _ | ⟨choice, cs⟩
    · exact ⟨[], by simp [chatLoop, hcs]⟩
    · cases hfr : choice.finish_reason == "tool_calls" with
      | false => exact ⟨[], by simp [chatLoop, hcs, hfr]⟩
      | true =>
        cases htc : choice.message.tool_calls with
        | none => exact ⟨[], by simp [chatLoop, hcs, hfr, htc]⟩
        | some tcs =>
          cases hh : handle_tool_call net cfg tcs with
          | error e => exact ⟨[], by simp [chatLoop, hcs, hfr, htc, hh]⟩
          | ok rp =>
            obtain ⟨results, pushes⟩ := rp
            obtain ⟨t, ht⟩ := chatLoop_reqs_prefix net cfg rest
              (msgs ++ choice.message :: results) (reqs ++ [reqFor msgs]) (ps ++ pushes)
            exact ⟨t, by simp [chatLoop, hcs, hfr, htc, hh, ht]⟩

/-- Invariant: every request `chatLoop` adds to the trace is `reqFor` of
some message list. -/
theorem chatLoop_reqs_all (net : PushReq → Except String Nat) (cfg : Config)
    (P : ApiRequest → Prop) (hP : ∀ msgs, P (reqFor msgs)) :
    ∀ (oracle : List ApiResult) (msgs : List Turn) (reqs : List ApiRequest)
      (ps : List PushReq),
      (∀ q ∈ reqs, P q) →
      ∀ q ∈ (chatLoop net cfg oracle msgs reqs ps).2.1, P q := by
  intro oracle
  induction oracle with
  | nil =>
    intro msgs reqs ps hacc q hq
    exact hacc q (by simpa [chatLoop] using hq)
  | cons r rest ih =>
    intro msgs reqs ps hacc q hq
    have hstep : ∀ q ∈ reqs ++ [reqFor msgs], P q := by
      intro q hq'
      rcases List.mem_append.mp hq' with h | h
      · exact hacc q h
      · rw [List.mem_singleton.mp h]; exact hP msgs
    cases r with
    | err e => exact hstep q (by simpa [chatLoop] using hq)
    | ok resp =>
      rcases hcs : resp.choices with _ | ⟨choice, cs⟩
      · exact hstep q (by simpa [chatLoop, hcs] using hq)
      · cases hfr : choice.finish_reason == "tool_calls" with
        | false => exact hstep q (by simpa [chatLoop, hcs, hfr] using hq)
        | true =>
          cases htc : choice.message.tool_calls with
          | none => exact hstep q (by simpa [chatLoop, hcs, hfr, htc] using hq)
          | some tcs =>
            cases hh : handle_tool_call net cfg tcs with
            | error e => exact hstep q (by simpa [chatLoop, hcs, hfr, htc, hh] using hq)
            | ok rp =>
              obtain ⟨results, pushes⟩ := rp
              exact ih (msgs ++ choice.message :: results)
                (reqs ++ [reqFor msgs]) (ps ++ pushes) hstep q
                (by simpa [chatLoop, hcs, hfr, htc, hh] using hq)

/-- Any number of tool-call rounds is followed through to the final
ordinary completion: the loop has no upper bound on rounds. -/
theorem chatLoop_unbounded (net : PushReq → Except String Nat) (cfg : Config) (ct : String) :
    ∀ (n : Nat) (msgs : List Turn) (reqs : List ApiRequest) (ps : List PushReq),
      (chatLoop net cfg
          (List.replicate n (.ok emptyToolCallsResp) ++ [.ok (stopResp ct)])
          msgs reqs ps).1 = .returns (some ct) := by
  intro n
  induction n with
  | zero => intro msgs reqs ps; simp [chatLoop, stopResp]
  | succ n ih =>
    intro msgs reqs ps
    rw [List.replicate_succ, List.cons_append]
    exact ih _ _ _

/-- C2: `chat` builds the message list as one synthesized system turn,
followed by the given history, followed by the new user turn, and its first
request is exactly that list with the fixed tool set; every request of
every round carries the fixed model and tool-spec set; a round whose stop
reason is not `tool_calls` immediately returns that response's content as
the reply; and rounds are unbounded: for every `n`, a trace of `n`
tool-call rounds followed by an ordinary completion yields that
completion's text. -/
theorem chat_request_protocol (net : PushReq → Except String Nat) (cfg : Config) (m : Me)
    (um : String) (hist : List Turn) :
    (∀ (r : ApiResult) (rest : List ApiResult),
        ((Me.chat net cfg m (r :: rest) um hist).2.1).head? =
          some (reqFor (systemTurn m :: hist ++ [userTurn um])))
    ∧ (∀ (oracle : List ApiResult) (q : ApiRequest),
        q ∈ (Me.chat net cfg m oracle um hist).2.1 →
          q.model = "gpt-4o-mini" ∧ q.tools = tools)
    ∧ (∀ (fr : String) (msg : Turn) (cs : List Choice) (rest : List ApiResult)
          (msgs : List Turn) (reqs : List ApiRequest) (ps : List PushReq),
        fr ≠ "tool_calls" →
        chatLoop net cfg (.ok ⟨⟨fr, msg⟩ :: cs⟩ :: rest) msgs reqs ps =
          (.returns msg.content, reqs ++ [reqFor msgs], ps))
    ∧ (∀ (n : Nat) (ct : String),
        (Me.chat net cfg m
            (List.replicate n (.ok emptyToolCallsResp) ++ [.ok (stopResp ct)])
            um hist).1 = .returns (some ct)) := by
  refine ⟨?_, ?_, ?_, ?_⟩
  · intro r rest
    obtain ⟨t, ht⟩ := chatLoop_cons_trace net cfg r rest
      (systemTurn m :: hist ++ [userTurn um]) [] []
    unfold Me.chat
    rw [ht]
    simp
  · intro oracle q hq
    exact chatLoop_reqs_all net cfg
      (fun q => q.model = "gpt-4o-mini" ∧ q.tools = tools)
      (fun msgs => ⟨rfl, rfl⟩) oracle _ [] [] (by simp) q hq
  · intro fr msg cs rest msgs reqs ps hfr
    have hb : (fr == "tool_calls") = false := by simpa using hfr
    simp [chatLoop, hb]
  · intro n ct
    exact chatLoop_unbounded net cfg ct n _ [] []

/-- Witness for C2 at a concrete one-round exchange. -/
theorem chat_request_protocol_witness :
    ((Me.chat net0 cfg0 me0 [.ok (stopResp "hi")] "hello" []).2.1).head? =
        some (reqFor (systemTurn me0 :: [] ++ [userTurn "hello"]))
    ∧ ((reqFor (systemTurn me0 :: [] ++ [userTurn "hello"])).model = "gpt-4o-mini"
        ∧ (reqFor (systemTurn me0 :: [] ++ [userTurn "hello"])).tools = tools)
    ∧ chatLoop net0 cfg0 [.ok ⟨[⟨"stop", ⟨"assistant", some "hi", none, none⟩⟩]⟩] [] [] [] =
        (.returns (some "hi"), [] ++ [reqFor []], [])
    ∧ (Me.chat net0 cfg0 me0
          (List.replicate 2 (.ok emptyToolCallsResp) ++ [.ok (stopResp "done")])
          "hello" []).1 = .returns (some "done") :=
  ⟨(chat_request_protocol net0 cfg0 me0 "hello" []).1 (.ok (stopResp "hi")) [],
   (chat_request_protocol net0 cfg0 me0 "hello" []).2.1 [.ok (stopResp "hi")]
     (reqFor (systemTurn me0 :: [] ++ [userTurn "hello"])) (List.Mem.head _),
   (chat_request_protocol net0 cfg0 me0 "hello" []).2.2.1 "stop"
     ⟨"assistant", some "hi", none, none⟩ [] [] [] [] [] (by decide),
   (chat_request_protocol net0 cfg0 me0 "hello" []).2.2.2 2 "done"⟩

/-- C3 counterexample: the tool-name lookup is against the module's global
namespace, not the fixed two-tool set.  The non-tool name `push` resolves
to the module-level `push` function, which is invoked (an outbound
notification request is issued) and whose `None` return is serialized as
payload "null" — not the empty object. -/
theorem tool_lookup_globals_counterexample :
    handle_tool_call net0 cfg0 [⟨"call_p", "push", some (.obj [("text", .str "hello")])⟩] =
        .ok ([⟨"tool", some "null", some "call_p", none⟩],
          [⟨"https://api.pushover.net/1/messages.json", "tok", "usr", "hello"⟩])
    ∧ "null" ≠ "\x7b\x7d" :=
  ⟨rfl, by decide⟩

/-- C3 amended: a requested name that is unbound in the module globals (or
bound to a falsy value) yields the empty result object as the ToolResult
payload, raises nothing, and invokes no function (it contributes no
pushes). -/
theorem unbound_tool_name_yields_empty (net : PushReq → Except String Nat) (cfg : Config)
    (tc : ToolCall) (rest : List ToolCall) (j : Json)
    (hargs : tc.arguments = some j)
    (hg : ∀ g, globalsGet cfg tc.name = some g → pyTruthy g = false) :
    handle_tool_call net cfg (tc :: rest) =
      (handle_tool_call net cfg rest).map
        (fun q => (⟨"tool", some "\x7b\x7d", some tc.id, none⟩ :: q.1, q.2)) := by
  have hd : dispatchCall net cfg tc.name j = .ok (.obj [], []) := by
    unfold dispatchCall
    cases hl : globalsGet cfg tc.name with
    | none => rfl
    | some g => simp [hg g hl]
  simp only [handle_tool_call, hargs, hd]
  cases hrec : handle_tool_call net cfg rest with
  | error e => rfl
  | ok rp =>
    obtain ⟨rs, ps⟩ := rp
    simp [Except.map, dumps, dumpsFields]

/-- Witness for the amended C3 at the unbound name "bogus". -/
theorem unbound_tool_name_yields_empty_witness :
    handle_tool_call net0 cfgNone [⟨"c9", "bogus", some (.obj [])⟩] =
      (handle_tool_call net0 cfgNone []).map
        (fun q => (⟨"tool", some "\x7b\x7d", some "c9", none⟩ :: q.1, q.2)) :=
  unbound_tool_name_yields_empty net0 cfgNone ⟨"c9", "bogus", some (.obj [])⟩ [] (.obj [])
    rfl (by intro g hgg; simp [globalsGet] at hgg)

/-- Writing one index of a list leaves every other index's `getD` value
unchanged. -/
theorem getD_set_ne {α : Type} (d : α) :
    ∀ (l : List α) (i j : Nat) (v : α), i ≠ j →
      (l.set j v).getD i d = l.getD i d := by
  intro l
  induction l with
  | nil => intros; simp [List.set]
  | cons a as ih =>
    intro i j v hij
    cases j with
    | zero =>
      cases i with
      | zero => exact absurd rfl hij
      | succ i => simp [List.set]
    | succ j =>
      cases i with
      | zero => simp [List.set]
      | succ i =>
        simp only [List.set, List.getD_cons_succ]
        exact ih i j v (fun h => hij (by rw [h]))

/-- Writing one heap cell leaves every other cell unchanged. -/
theorem Heap.get_set_ne (h : Heap) (r s : Nat) (v : List Turn) (hrs : r ≠ s) :
    (h.set s v).get r = h.get r :=
  getD_set_ne [] h.cells r s v hrs

/-- A fresh allocation does not disturb existing cells. -/
theorem Heap.get_alloc (h : Heap) (v : List Turn) (r : Nat)
    (hr : r < h.cells.length) : ((h.alloc v).1).get r = h.get r := by
  simp only [Heap.alloc, Heap.get]
  exact List.getD_append _ _ _ _ hr

/-- The loop writes only the `messages` cell: every other reference is
untouched, whether the loop returns, raises, or exhausts the trace. -/
theorem chatLoopH_frame (net : PushReq → Except String Nat) (cfg : Config) :
    ∀ (oracle : List ApiResult) (h : Heap) (mref r : Nat), r ≠ mref →
      ((chatLoopH net cfg oracle h mref).2).get r = h.get r := by
  intro oracle
  induction oracle with
  | nil => intro h mref r hr; rfl
  | cons a rest ih =>
    intro h mref r hr
    cases a with
    | err e => simp [chatLoopH]
    | ok resp =>
      rcases hcs : resp.choices with _ | ⟨choice, cs⟩
      · simp [chatLoopH, hcs]
      · cases hfr : choice.finish_reason == "tool_calls" with
        | false => simp [chatLoopH, hcs, hfr]
        | true =>
          cases htc : choice.message.tool_calls with
          | none => simp [chatLoopH, hcs, hfr, htc]
          | some tcs =>
            cases hh : handle_tool_call net cfg tcs with
            | error e => simp [chatLoopH, hcs, hfr, htc, hh]
            | ok rp =>
              obtain ⟨results, pushes⟩ := rp
              have hrec := ih (h.set mref (h.get mref ++ choice.message :: results))
                mref r hr
              simp only [chatLoopH, hcs, hfr, htc, hh, if_true]
              rw [hrec, Heap.get_set_ne h r mref _ hr]

/-- C9: `chat` never mutates the history list passed to it: the message
list `[system] + chat_history + [user]` is a freshly allocated object and
all appends during the tool-resolution loop go to that object, so after
`chatH` finishes (returning, raising, or running out of API trace) the
caller's history cell holds exactly what was passed in. -/
theorem chat_preserves_history (net : PushReq → Except String Nat) (cfg : Config) (m : Me)
    (oracle : List ApiResult) (um : String) (histRef : Nat) (h : Heap)
    (hlt : histRef < h.cells.length) :
    ((Me.chatH net cfg m oracle um histRef h).2).get histRef = h.get histRef := by
  unfold Me.chatH
  simp only [Heap.alloc]
  rw [chatLoopH_frame net cfg oracle _ h.cells.length histRef (Nat.ne_of_lt hlt)]
  exact Heap.get_alloc h _ histRef hlt

/-- Witness for C9: a one-cell heap holding a one-turn history, across a
tool round followed by an ordinary completion. -/
theorem chat_preserves_history_witness :
    ((Me.chatH net0 cfg0 me0
        [.ok ⟨[⟨"tool_calls", msgQ⟩]⟩, .ok (stopResp "noted")]
        "hello" 0 ⟨[[userTurn "hi"]]⟩).2).get 0 =
      Heap.get ⟨[[userTurn "hi"]]⟩ 0 :=
  chat_preserves_history net0 cfg0 me0
    [.ok ⟨[⟨"tool_calls", msgQ⟩]⟩, .ok (stopResp "noted")]
    "hello" 0 ⟨[[userTurn "hi"]]⟩ (by decide)

/-- Batch semantics of `handle_tool_call` past an already-successful
prefix. -/
theorem handle_tool_call_append (net : PushReq → Except String Nat) (cfg : Config) :
    ∀ (pre ts : List ToolCall) (rs : List Turn) (ps : List PushReq),
      handle_tool_call net cfg pre = .ok (rs, ps) →
      handle_tool_call net cfg (pre ++ ts) =
        (handle_tool_call net cfg ts).map (fun q => (rs ++ q.1, ps ++ q.2)) := by
  intro pre
  induction pre with
  | nil =>
    intro ts rs ps h
    have h' := Except.ok.inj h
    have h1 : rs = ([] : List Turn) := (congrArg Prod.fst h').symm
    have h2 : ps = ([] : List PushReq) := (congrArg Prod.snd h').symm
    subst h1
    subst h2
    simp only [List.nil_append]
    cases handle_tool_call net cfg ts with
    | error e => rfl
    | ok q => obtain ⟨a, b⟩ := q; simp [Except.map]
  | cons tc rest ih =>
    intro ts rs ps h
    simp only [handle_tool_call] at h
    rcases hargs : tc.arguments with _ | args
    · rw [hargs] at h
      dsimp only at h
      cases h
    · rw [hargs] at h
      dsimp only at h
      cases hstep : dispatchCall net cfg tc.name args with
      | error e =>
        rw [hstep] at h
        dsimp only at h
        cases h
      | ok rp =>
        obtain ⟨result, pushes1⟩ := rp
        rw [hstep] at h
        dsimp only at h
        cases hrec : handle_tool_call net cfg rest with
        | error e =>
          rw [hrec] at h
          dsimp only at h
          cases h
        | ok rp2 =>
          obtain ⟨rs1, ps1⟩ := rp2
          rw [hrec] at h
          dsimp only at h
          have h' := Except.ok.inj h
          have h1 : rs = ⟨"tool", some (dumps result), some tc.id, none⟩ :: rs1 :=
            (congrArg Prod.fst h').symm
          have h2 : ps = pushes1 ++ ps1 := (congrArg Prod.snd h').symm
          subst h1
          subst h2
          have ihe := ih ts rs1 ps1 hrec
          simp only [List.cons_append, handle_tool_call]
          rw [hargs]
          dsimp only
          rw [hstep]
          dsimp only
          rw [List.append_eq, ihe]
          cases handle_tool_call net cfg ts with
          | error e => rfl
          | ok q => obtain ⟨a, b⟩ := q; simp [Except.map]

/-- C10 amended: a tool-call request whose arguments string is not valid
JSON makes the unguarded `json.loads` raise: once the batch reaches it
(after any successfully processed prefix), `handle_tool_call` raises
before invoking any tool and produces no ToolResult turn, and the error
propagates out of `chat`. -/
theorem invalid_json_arguments_raise (net : PushReq → Except String Nat) (cfg : Config)
    (pre : List ToolCall) (tc : ToolCall) (post : List ToolCall)
    (rs : List Turn) (ps : List PushReq)
    (hpre : handle_tool_call net cfg pre = .ok (rs, ps))
    (hargs : tc.arguments = none) :
    handle_tool_call net cfg (pre ++ tc :: post) = .error .jsonDecodeError
    ∧ ∀ (m : Me) (msg : Turn) (cs : List Choice) (rest : List ApiResult)
        (um : String) (hist : List Turn),
        msg.tool_calls = some (pre ++ tc :: post) →
        (Me.chat net cfg m (.ok ⟨⟨"tool_calls", msg⟩ :: cs⟩ :: rest) um hist).1 =
          .raises .jsonDecodeError := by
  have h1 : handle_tool_call net cfg (tc :: post) = .error .jsonDecodeError := by
    simp [handle_tool_call, hargs]
  have h2 : handle_tool_call net cfg (pre ++ tc :: post) = .error .jsonDecodeError := by
    rw [handle_tool_call_append net cfg pre (tc :: post) rs ps hpre, h1]
    rfl
  refine ⟨h2, ?_⟩
  intro m msg cs rest um hist hmsg
  simp [Me.chat, chatLoop, hmsg, h2]

/-- Witness for the amended C10: a successfully handled call followed by
one whose arguments do not parse. -/
theorem invalid_json_arguments_raise_witness :
    handle_tool_call net0 cfg0 ([tcQ] ++ ⟨"c2", "x", none⟩ :: []) =
        .error .jsonDecodeError
    ∧ (Me.chat net0 cfg0 me0
          [.ok ⟨[⟨"tool_calls",
            ⟨"assistant", none, none, some ([tcQ] ++ ⟨"c2", "x", none⟩ :: [])⟩⟩]⟩]
          "q" []).1 = .raises .jsonDecodeError :=
  ⟨(invalid_json_arguments_raise net0 cfg0 [tcQ] ⟨"c2", "x", none⟩ []
      [resQ] [pushQ] rfl rfl).1,
   (invalid_json_arguments_raise net0 cfg0 [tcQ] ⟨"c2", "x", none⟩ []
      [resQ] [pushQ] rfl rfl).2
     me0 ⟨"assistant", none, none, some ([tcQ] ++ ⟨"c2", "x", none⟩ :: [])⟩
     [] [] "q" [] rfl⟩

/-- C10 counterexample: arguments that are valid JSON but not a key-value
record (the number 7), with a tool name unbound in globals, do not raise:
`tool(**args)` is never evaluated because the lookup is falsy, a ToolResult
turn with the empty-object payload is produced, and `chat` finishes the
exchange normally. -/
theorem unparsed_arguments_counterexample :
    handle_tool_call net0 cfgNone [⟨"call_x", "nosuchtool", some (.num 7)⟩] =
        .ok ([⟨"tool", some "\x7b\x7d", some "call_x", none⟩], [])
    ∧ (Me.chat net0 cfgNone me0
          [.ok ⟨[⟨"tool_calls", ⟨"assistant", none, none,
              some [⟨"call_x", "nosuchtool", some (.num 7)⟩]⟩⟩]⟩,
           .ok (stopResp "done")] "q" []).1 = .returns (some "done") :=
  ⟨rfl, rfl⟩

end CareerBot

